import Mathlib

/-!
Shallow embedding of `src/mcp_components.py` (XpressAI/xai-mcp).

The Python module defines Xircuits components bridging a visual dataflow
graph to a FastMCP protocol server:

* `MCPCreateServer.execute`   — creates a `FastMCP` server and stores it in
  the process-wide context dict under `mcp_server` (lines 26-46);
* `MCPRunServer.execute`      — runs the server; its "register all" loops
  are literal `pass` statements (lines 115-142);
* `MCPDefineTool.init` / `MCPDefineResource.init` / `MCPDefinePrompt.init`
  — append the component to the kind list in the context and, only when the
  server key is already present, call the `_register_*` method which builds
  a handler closure and registers it with the server (lines 164-337);
* `MCPSetToolResult` / `MCPSetResourceResult` / `MCPSetPromptResult`
  — write `tool_result` / `resource_result` / `prompt_result` into whatever
  context dict the chain run passes them (lines 340-382);
* the handler closures (`tool_handler` etc.) copy the context dict, write
  the raw call kwargs into the component's shared out-ports, run the chain
  on the copy, and read the kind-scoped result key from the copy.

Python values stored in context dicts and ports are modelled by `Value`
(with an explicit `pynone` for Python `None`), dicts by association lists
with last-write-wins update, and the context dict by a structure whose
fields mirror the keys the source uses (`mcp_server`, `mcp_tools`,
`mcp_resources`, `mcp_prompts`, plus a generic `store` for the reserved
result keys).  Component instances are identified by a `Nat` id; a handler
registered with the server is recorded as (identity, component id).
-/

/-- A Python value as used by the components: `None`, strings, numbers.
`pynone` models Python `None` explicitly, because `dict.get` and unset
ports return `None` rather than being absent. -/
inductive Value where
  | pynone
  | vstr (s : String)
  | vnat (n : Nat)
deriving DecidableEq, Repr

/-- A Python dict with string keys, as an association list.  Keys are
unique by construction of `dictSet`. -/
abbrev Dict : Type := List (String × Value)

/-- Python `d.get(k)`: `some v` when the key is present, `none` otherwise. -/
def dictGet (d : Dict) (k : String) : Option Value :=
  match d with
  | [] => none
  | (k', v) :: rest => if k' = k then some v else dictGet rest k

/-- Python `d[k] = v`: replace an existing binding or append a new one
(last write wins). -/
def dictSet (d : Dict) (k : String) (v : Value) : Dict :=
  match d with
  | [] => [(k, v)]
  | (k', v') :: rest =>
      if k' = k then (k, v) :: rest else (k', v') :: dictSet rest k v

/-- Python truthiness of an optional string: `None` and `""` are falsy.
Used for `if not name:` (line 37) and `if self.name.value:` (line 203). -/
def strTruthy : Option String → Bool
  | none => false
  | some s => s ≠ ""

/-- The FastMCP server handle, reduced to what the source observes of it:
the name and dependencies it was created with (line 40) and the ordered
registrations made through `server._tool(...)`, `server._resource(...)`,
`server._prompt(...)` (lines 204-206, 269, 332-335).  A registration
records the identity argument passed (for `_tool`/`_prompt`, `none` when
the decorator was called without a name) and the id of the component whose
handler closure was registered. -/
structure Server where
  name : String
  dependencies : List String
  toolRegs : List (Option String × Nat)
  resourceRegs : List (String × Nat)
  promptRegs : List (Option String × Nat)
deriving DecidableEq, Repr

/-- The process-wide context dict `ctx`.  The source keeps everything in
one Python dict; the four reserved keys are modelled as fields
(`none` / the empty list standing for "key absent", matching
`MCP_SERVER_KEY in ctx` and `ctx.setdefault(key, [])`), and all other
entries — in particular the reserved result keys — live in `store`. -/
structure Ctx where
  mcp_server : Option Server
  mcp_tools : List Nat
  mcp_resources : List Nat
  mcp_prompts : List Nat
  store : Dict
deriving DecidableEq, Repr

/-- The empty context: a fresh `ctx` dict with no keys. -/
def emptyCtx : Ctx :=
  { mcp_server := none, mcp_tools := [], mcp_resources := [],
    mcp_prompts := [], store := [] }

/-- The compile-time data of an `MCPDefineTool` component: the `name`
in-port (`InCompArg[str]`, possibly unset or empty) and the `description`
in-port.  Whether a chain is attached (`hasattr(self, 'next') and
self.next`, line 191) is passed to the handler model separately as an
`Option` chain. -/
structure ToolComp where
  name : Option String
  description : Option String
deriving DecidableEq, Repr

/-- The compile-time data of an `MCPDefineResource` component (`path` is
an `InCompArg[str]`; the source reads `self.path.value` unconditionally at
line 269, so it is modelled as the string the port holds). -/
structure ResourceComp where
  path : String
  description : Option String
deriving DecidableEq, Repr

/-- The compile-time data of an `MCPDefinePrompt` component. -/
structure PromptComp where
  name : Option String
  description : Option String
deriving DecidableEq, Repr

/-- `MCPDefineTool._register_tool` (lines 174-208), restricted to its
effect on the server: builds `tool_handler` and registers it, keyed by
`self.name.value` when that is truthy and anonymously otherwise
(lines 203-206).  No `bound` flag exists in the source and nothing guards
against registering the same component twice. -/
def registerToolOnServer (i : Nat) (c : ToolComp) (s : Server) : Server :=
  if strTruthy c.name then
    { s with toolRegs := s.toolRegs ++ [(c.name, i)] }
  else
    { s with toolRegs := s.toolRegs ++ [(none, i)] }

/-- `MCPDefineResource._register_resource` (lines 240-271), restricted to
its effect on the server: registers `resource_handler` under
`self.path.value` (line 269), unconditionally. -/
def registerResourceOnServer (i : Nat) (c : ResourceComp) (s : Server) : Server :=
  { s with resourceRegs := s.resourceRegs ++ [(c.path, i)] }

/-- `MCPDefinePrompt._register_prompt` (lines 303-337), restricted to its
effect on the server (lines 332-335). -/
def registerPromptOnServer (i : Nat) (c : PromptComp) (s : Server) : Server :=
  if strTruthy c.name then
    { s with promptRegs := s.promptRegs ++ [(c.name, i)] }
  else
    { s with promptRegs := s.promptRegs ++ [(none, i)] }

/-- `MCPDefineTool.init` (lines 164-172): always appends the component to
`ctx[MCP_TOOLS_KEY]` (line 168); when `MCP_SERVER_KEY in ctx`, calls
`self._register_tool(ctx)` (lines 171-172), which mutates the stored
server; otherwise only a warning is printed and the component stays
pending. -/
def toolInit (i : Nat) (c : ToolComp) (ctx : Ctx) : Ctx :=
  let ctx := { ctx with mcp_tools := ctx.mcp_tools ++ [i] }
  match ctx.mcp_server with
  | some s => { ctx with mcp_server := some (registerToolOnServer i c s) }
  | none => ctx

/-- `MCPDefineResource.init` (lines 230-238), same shape as `toolInit`. -/
def resourceInit (i : Nat) (c : ResourceComp) (ctx : Ctx) : Ctx :=
  let ctx := { ctx with mcp_resources := ctx.mcp_resources ++ [i] }
  match ctx.mcp_server with
  | some s => { ctx with mcp_server := some (registerResourceOnServer i c s) }
  | none => ctx

/-- `MCPDefinePrompt.init` (lines 293-301), same shape as `toolInit`. -/
def promptInit (i : Nat) (c : PromptComp) (ctx : Ctx) : Ctx :=
  let ctx := { ctx with mcp_prompts := ctx.mcp_prompts ++ [i] }
  match ctx.mcp_server with
  | some s => { ctx with mcp_server := some (registerPromptOnServer i c s) }
  | none => ctx

/-- `MCPCreateServer.execute` (lines 26-46).  `mcpAvailable` models
whether `from mcp.server.fastmcp import FastMCP` succeeds.  On
`ImportError` the source prints two messages and `return`s — no exception
is raised and `ctx` is untouched, hence the `.ok ctx` result; the `.error`
branch of the return type is never produced because the source contains no
`raise`.  Otherwise the name defaults to `"xircuits-mcp-server"` when
falsy (lines 37-38), dependencies default to `[]` (line 35), a fresh
server is constructed and stored under `MCP_SERVER_KEY` (lines 40, 46).
Nothing else in `ctx` is read or written: in particular the pending
component lists are not swept and no registration happens here. -/
def createServerExecute (mcpAvailable : Bool) (serverName : Option String)
    (dependencies : Option (List String)) (ctx : Ctx) : Except String Ctx :=
  if !mcpAvailable then
    .ok ctx
  else
    let name := if strTruthy serverName then serverName.getD "" else "xircuits-mcp-server"
    let deps := dependencies.getD []
    let s : Server :=
      { name := name, dependencies := deps,
        toolRegs := [], resourceRegs := [], promptRegs := [] }
    .ok { ctx with mcp_server := some s }

/-- `MCPRunServer.execute` (lines 115-142) as far as the context and the
registrations are concerned: when the server key is absent it prints an
error and returns; when present, the three "Register all ..." loops over
`ctx.get(MCP_TOOLS_KEY, [])` etc. have `pass` bodies (lines 126-136) and
do nothing, then `server.run()` is called.  The context and the server's
registration lists are unchanged in every case. -/
def runServerExecute (ctx : Ctx) : Ctx :=
  match ctx.mcp_server with
  | none => ctx
  | some _ => ctx

/-- A component id `i` is bound in `ctx` when a handler for it has been
registered with the stored server under any of the three kind APIs. -/
def boundInCtx (i : Nat) (ctx : Ctx) : Bool :=
  match ctx.mcp_server with
  | none => false
  | some s =>
      s.toolRegs.any (fun r => r.2 = i) ||
      s.resourceRegs.any (fun r => r.2 = i) ||
      s.promptRegs.any (fun r => r.2 = i)

/-- The identity a tool/prompt registration is keyed by: the name port's
value when truthy (`server._tool(name=self.name.value)`), `none` for the
anonymous decorator call (`server._tool()`), lines 203-206 / 332-335. -/
def nameIdentity (name : Option String) : Option String :=
  if strTruthy name then name else none

/-!
Invocation bridge.  A chain hanging off a Define component's `next` port
is modelled as the list of component `execute` bodies the
`SubGraphExecutor(self.next).do(tool_ctx)` run performs, in traversal
order.  The chain operations the bridge claims are about are the three
set-result components (lines 340-382); `raiseExc` stands for any component
whose `execute` raises a Python exception — `SubGraphExecutor` and the
handler closures contain no `try`/`except`, so such an exception
propagates out of the handler.
-/

/-- One chain node's `execute`, as it acts on the invocation context. -/
inductive ChainOp where
  | setToolResult (v : Value)
  | setResourceResult (v : Value)
  | setPromptResult (v : Value)
  | raiseExc (msg : String)
deriving DecidableEq, Repr

/-- Python `str(value)` as far as the log strings need it. -/
def showValue : Value → String
  | .pynone => "None"
  | .vstr s => s
  | .vnat n => toString n

/-- One chain node's `execute` on a context: the three set-result
components assign their reserved key into whatever context dict the run
passes them (`ctx['tool_result'] = self.result.value`, lines 351, 366,
381) and print a message; a raising node propagates its exception. -/
def execOp : ChainOp → Ctx → Except String (Ctx × String)
  | .setToolResult v, c =>
      .ok ({ c with store := dictSet c.store "tool_result" v },
           "Set tool result: " ++ showValue v)
  | .setResourceResult v, c =>
      .ok ({ c with store := dictSet c.store "resource_result" v },
           "Set resource result: " ++ showValue v)
  | .setPromptResult v, c =>
      .ok ({ c with store := dictSet c.store "prompt_result" v },
           "Set prompt result: " ++ showValue v)
  | .raiseExc msg, _ => .error msg

/-- `SubGraphExecutor(start).do(ctx)`: run the chain nodes in order on the
given context, collecting printed log lines; the first exception aborts
the run and propagates. -/
def runChain : List ChainOp → Ctx → Except String (Ctx × List String)
  | [], c => .ok (c, [])
  | op :: rest, c =>
      match execOp op c with
      | .error e => .error e
      | .ok (c2, log) =>
          match runChain rest c2 with
          | .error e => .error e
          | .ok (c3, logs) => .ok (c3, log :: logs)

/-- True when no node of the chain raises. -/
def noRaise (ops : List ChainOp) : Bool :=
  ops.all fun op =>
    match op with
    | .raiseExc _ => false
    | _ => true

/-- The value a single chain op assigns to store key `k`, if any. -/
def opWrites (k : String) : ChainOp → Option Value
  | .setToolResult v => if k = "tool_result" then some v else none
  | .setResourceResult v => if k = "resource_result" then some v else none
  | .setPromptResult v => if k = "prompt_result" then some v else none
  | .raiseExc _ => none

/-- The last value the chain writes under key `k`, if any write occurs. -/
def lastWrite (k : String) : List ChainOp → Option Value
  | [] => none
  | op :: rest =>
      match lastWrite k rest with
      | some v => some v
      | none => opWrites k op

/-- The contents of store key `k` after the chain's writes, starting from
`init`: the last write wins, and with no write the initial value is kept. -/
def afterWrites (ops : List ChainOp) (k : String) (init : Option Value) : Option Value :=
  match lastWrite k ops with
  | some v => some v
  | none => init

/-- The Define component's two out-ports, written by the handler closure
on every call: `self.args.value = kwargs` and
`self.ctx.value = kwargs.get('ctx')` (lines 186-187, 252-253, 315-316).
These live on the component instance — process-wide shared state, not part
of the copied invocation context. -/
structure HandlerPorts where
  argsVal : Option Dict
  ctxVal : Value
deriving DecidableEq, Repr

/-- `tool_handler` (lines 178-197): copy the context dict (top-level
copy, `ctx.copy()`), write the raw kwargs into the component's shared
out-ports, and — when a chain is attached — run it on the copy and read
`tool_result` from the copy (`tool_ctx.get('tool_result')`, `None` when
the key is absent).  With no chain attached the initial `result = None` is
returned and nothing is printed or raised.  There is no `try`/`except`
anywhere in the closure, so a chain exception propagates to the caller.
The process-wide `ctx` is only read (to copy it), never assigned into.
Returns the value handed to the protocol server, the updated shared ports
and the log lines printed during the call. -/
def toolHandler (chain : Option (List ChainOp)) (ctx : Ctx) (kwargs : Dict) :
    Except String (Value × HandlerPorts × List String) :=
  let toolCtx := ctx
  let ports : HandlerPorts :=
    { argsVal := some kwargs, ctxVal := (dictGet kwargs "ctx").getD .pynone }
  match chain with
  | none => .ok (.pynone, ports, [])
  | some ops =>
      match runChain ops toolCtx with
      | .error e => .error e
      | .ok (c2, logs) =>
          .ok ((dictGet c2.store "tool_result").getD .pynone, ports, logs)

/-- `resource_handler` (lines 244-263), identical to `tool_handler` except
that it reads `resource_result` from its copy. -/
def resourceHandler (chain : Option (List ChainOp)) (ctx : Ctx) (kwargs : Dict) :
    Except String (Value × HandlerPorts × List String) :=
  let resourceCtx := ctx
  let ports : HandlerPorts :=
    { argsVal := some kwargs, ctxVal := (dictGet kwargs "ctx").getD .pynone }
  match chain with
  | none => .ok (.pynone, ports, [])
  | some ops =>
      match runChain ops resourceCtx with
      | .error e => .error e
      | .ok (c2, logs) =>
          .ok ((dictGet c2.store "resource_result").getD .pynone, ports, logs)

/-- `prompt_handler` (lines 307-326), identical to `tool_handler` except
that it reads `prompt_result` from its copy. -/
def promptHandler (chain : Option (List ChainOp)) (ctx : Ctx) (kwargs : Dict) :
    Except String (Value × HandlerPorts × List String) :=
  let promptCtx := ctx
  let ports : HandlerPorts :=
    { argsVal := some kwargs, ctxVal := (dictGet kwargs "ctx").getD .pynone }
  match chain with
  | none => .ok (.pynone, ports, [])
  | some ops =>
      match runChain ops promptCtx with
      | .error e => .error e
      | .ok (c2, logs) =>
          .ok ((dictGet c2.store "prompt_result").getD .pynone, ports, logs)

/-!
Concurrency model for two overlapping invocations of one registered tool
handler.  The protocol server may run two calls of the same
`tool_handler` closure concurrently.  The state shared between the two
calls is the component instances' out-ports (`self.args.value`,
`self.ctx.value` on the `MCPDefineTool`, and `self.value.value` on a
downstream `MCPGetArgument`) plus the process-wide context dict; each call
has its own local `tool_ctx` copy, program counter and return value.

The chain modelled here is the graph
`MCPDefineTool -> MCPGetArgument -> MCPSetToolResult` with the
`MCPGetArgument.args` in-port linked to the tool's `args` out-port and the
`MCPSetToolResult.result` in-port linked to `MCPGetArgument.value`; linked
ports alias one shared port object, so a read at execute time observes the
latest write from either call.  Each `pc` step is one of the handler's
statements, in source order (lines 178-197, 452-466, 350-352):
  0: `tool_ctx = ctx.copy()`
  1: `self.args.value = kwargs; self.ctx.value = kwargs.get('ctx')`
  2: `MCPGetArgument.execute` — reads the shared args port, writes the
     shared value port (`args.get(key, default)`, default when args falsy)
  3: `MCPSetToolResult.execute` — `tool_ctx['tool_result'] =` shared
     value port (a local write to this call's copy)
  4: `result = tool_ctx.get('tool_result'); return result`
-/

/-- The component out-ports shared by all concurrent invocations. -/
structure SharedPorts where
  toolArgs : Option Dict
  toolCtxPort : Value
  getArgValue : Value
deriving DecidableEq, Repr

/-- One invocation's private state: its raw kwargs, its `tool_ctx` copy,
its program counter and its eventual return value. -/
structure CallState where
  kwargs : Dict
  toolCtx : Ctx
  pc : Nat
  retVal : Value
deriving DecidableEq, Repr

/-- One atomic step of one invocation, against the shared ports and the
process-wide context.  `key` and `dflt` are the literal `key` / `default`
in-ports of the `MCPGetArgument` node.  The process-wide context `shared`
is read at step 0 (to copy it) and never written. -/
def invStep (key : String) (dflt : Value) (ports : SharedPorts) (shared : Ctx)
    (inv : CallState) : SharedPorts × CallState :=
  match inv.pc with
  | 0 => (ports, { inv with toolCtx := shared, pc := 1 })
  | 1 => ({ ports with
              toolArgs := some inv.kwargs,
              toolCtxPort := (dictGet inv.kwargs "ctx").getD .pynone },
          { inv with pc := 2 })
  | 2 =>
      match ports.toolArgs with
      | none => ({ ports with getArgValue := dflt }, { inv with pc := 3 })
      | some d =>
          if d = [] then
            ({ ports with getArgValue := dflt }, { inv with pc := 3 })
          else
            ({ ports with getArgValue := (dictGet d key).getD dflt },
             { inv with pc := 3 })
  | 3 =>
      (ports,
       { inv with
           toolCtx :=
             { inv.toolCtx with
                 store := dictSet inv.toolCtx.store "tool_result" ports.getArgValue },
           pc := 4 })
  | _ =>
      (ports,
       { inv with
           retVal := (dictGet inv.toolCtx.store "tool_result").getD .pynone,
           pc := 5 })

/-- The whole two-invocation system: shared ports, the process-wide
context, and the two calls `a` and `b`. -/
structure Sys where
  ports : SharedPorts
  shared : Ctx
  a : CallState
  b : CallState
deriving DecidableEq, Repr

/-- Step invocation `a` (when `who = true`) or `b` by one statement. -/
def sysStep (key : String) (dflt : Value) (who : Bool) (s : Sys) : Sys :=
  if who then
    { s with
        ports := (invStep key dflt s.ports s.shared s.a).1,
        a := (invStep key dflt s.ports s.shared s.a).2 }
  else
    { s with
        ports := (invStep key dflt s.ports s.shared s.b).1,
        b := (invStep key dflt s.ports s.shared s.b).2 }

/-- Run a schedule: an interleaving of the two calls, one statement per
entry (`true` = a step of call `a`). -/
def runSched (key : String) (dflt : Value) : List Bool → Sys → Sys
  | [], s => s
  | w :: rest, s => runSched key dflt rest (sysStep key dflt w s)

/-- Initial system state for two incoming calls with raw kwargs `kwA` and
`kwB`: out-ports hold `None` (fresh `InArg`/`OutArg` values), the
process-wide context is empty, both calls are at their first statement. -/
def initSys (kwA kwB : Dict) : Sys :=
  { ports := { toolArgs := none, toolCtxPort := .pynone, getArgValue := .pynone },
    shared := emptyCtx,
    a := { kwargs := kwA, toolCtx := emptyCtx, pc := 0, retVal := .pynone },
    b := { kwargs := kwB, toolCtx := emptyCtx, pc := 0, retVal := .pynone } }

/-- The fully serialized schedule: all five statements of call `a`, then
all five of call `b`. -/
def serialSched : List Bool :=
  [true, true, true, true, true, false, false, false, false, false]

/-- A concrete server handle, for instantiating theorems with hypotheses. -/
def sampleServer : Server :=
  { name := "s", dependencies := [],
    toolRegs := [], resourceRegs := [], promptRegs := [] }

/-- A context that already holds a server, for instantiating theorems. -/
def ctxWithServer : Ctx :=
  { emptyCtx with mcp_server := some sampleServer }

/-!
Helper lemmas shared by the claim theorems.
-/

theorem dictGet_dictSet (d : Dict) (key k : String) (v : Value) :
    dictGet (dictSet d key v) k = if key = k then some v else dictGet d k := by
  induction d with
  | nil => simp [dictGet, dictSet]
  | cons hd tl ih =>
      obtain ⟨k', v'⟩ := hd
      by_cases h1 : k' = key
      · subst h1
        by_cases h2 : k' = k <;> simp [dictGet, dictSet, h2]
      · by_cases h2 : k' = k
        · subst h2
          have hne : ¬ key = k' := fun h => h1 h.symm
          simp [dictGet, dictSet, h1, hne]
        · simp [dictGet, dictSet, h1, h2, ih]

theorem afterWrites_nil (k : String) (init : Option Value) :
    afterWrites [] k init = init := rfl

theorem afterWrites_cons (op : ChainOp) (rest : List ChainOp) (k : String)
    (init : Option Value) :
    afterWrites (op :: rest) k init =
      afterWrites rest k
        (match opWrites k op with
         | some v => some v
         | none => init) := by
  cases hw : lastWrite k rest with
  | none => cases ho : opWrites k op <;> simp [afterWrites, lastWrite, hw, ho]
  | some w => simp [afterWrites, lastWrite, hw]

theorem afterWrites_none (ops : List ChainOp) (k : String) :
    afterWrites ops k none = lastWrite k ops := by
  unfold afterWrites
  cases lastWrite k ops <;> rfl

theorem runChain_ok_store (ops : List ChainOp) (ctx : Ctx) (h : noRaise ops = true) :
    ∃ c' logs, runChain ops ctx = .ok (c', logs) ∧
      ∀ k, dictGet c'.store k = afterWrites ops k (dictGet ctx.store k) := by
  induction ops generalizing ctx with
  | nil => exact ⟨ctx, [], rfl, fun k => rfl⟩
  | cons op rest ih =>
      cases op with
      | raiseExc msg => simp [noRaise] at h
      | setToolResult v =>
          have h2 : noRaise rest = true := by simpa [noRaise] using h
          obtain ⟨c', logs, hrun, hst⟩ :=
            ih { ctx with store := dictSet ctx.store "tool_result" v } h2
          refine ⟨c', ("Set tool result: " ++ showValue v) :: logs, ?_, ?_⟩
          · simp [runChain, execOp, hrun]
          · intro k
            rw [hst k, afterWrites_cons]
            congr 1
            rcases eq_or_ne k "tool_result" with hk | hk
            · subst hk; simp [dictGet_dictSet, opWrites]
            · simp [dictGet_dictSet, opWrites, hk, Ne.symm hk]
      | setResourceResult v =>
          have h2 : noRaise rest = true := by simpa [noRaise] using h
          obtain ⟨c', logs, hrun, hst⟩ :=
            ih { ctx with store := dictSet ctx.store "resource_result" v } h2
          refine ⟨c', ("Set resource result: " ++ showValue v) :: logs, ?_, ?_⟩
          · simp [runChain, execOp, hrun]
          · intro k
            rw [hst k, afterWrites_cons]
            congr 1
            rcases eq_or_ne k "resource_result" with hk | hk
            · subst hk; simp [dictGet_dictSet, opWrites]
            · simp [dictGet_dictSet, opWrites, hk, Ne.symm hk]
      | setPromptResult v =>
          have h2 : noRaise rest = true := by simpa [noRaise] using h
          obtain ⟨c', logs, hrun, hst⟩ :=
            ih { ctx with store := dictSet ctx.store "prompt_result" v } h2
          refine ⟨c', ("Set prompt result: " ++ showValue v) :: logs, ?_, ?_⟩
          · simp [runChain, execOp, hrun]
          · intro k
            rw [hst k, afterWrites_cons]
            congr 1
            rcases eq_or_ne k "prompt_result" with hk | hk
            · subst hk; simp [dictGet_dictSet, opWrites]
            · simp [dictGet_dictSet, opWrites, hk, Ne.symm hk]

theorem sysStep_shared (key : String) (dflt : Value) (w : Bool) (s : Sys) :
    (sysStep key dflt w s).shared = s.shared := by
  cases w <;> rfl

theorem runSched_shared (key : String) (dflt : Value) (sched : List Bool) (s : Sys) :
    (runSched key dflt sched s).shared = s.shared := by
  induction sched generalizing s with
  | nil => rfl
  | cons w rest ih => rw [runSched, ih, sysStep_shared]

/-!
Claim theorems.
-/

/-- C1 counterexample: two concurrent invocations of the same registered
tool handler with different raw arguments DO observe each other's writes.
The args mapping the chain reads goes through the component's shared
out-port (`self.args.value = kwargs`), not through the per-call context
copy: with call `a` invoked with `k = 1` and call `b` with `k = 2`, the
interleaving a0 a1 b0 b1 a2 a3 a4 makes call `a` read `b`'s args and
return 2, while the same call run without interleaving returns 1 — so the
value the bridge returns for one call depends on the other call's
intermediate writes, refuting the claimed isolation. -/
theorem interleaved_call_observes_other_args :
    (runSched "k" (.vstr "d") [true, true, false, false, true, true, true]
        (initSys [("k", .vnat 1)] [("k", .vnat 2)])).a.retVal = .vnat 2 ∧
    (runSched "k" (.vstr "d") [true, true, true, true, true]
        (initSys [("k", .vnat 1)] [("k", .vnat 2)])).a.retVal = .vnat 1 := by
  constructor <;> rfl

/-- C1 amended: what does hold is (i) the process-wide shared context is
never mutated by any interleaving of the two calls — each call copies it
at call start and all result writes go to the copy — and (ii) calls that
are not interleaved are isolated: under the fully serialized schedule each
call returns the value from its own kwargs.  The args mapping, however,
travels through shared component out-ports, so interleaved calls can
observe each other's argument writes (see the counterexample). -/
theorem shared_ctx_untouched_and_serialized_calls_isolated (u v : Value) :
    (∀ key dflt sched s, (runSched key dflt sched s).shared = s.shared) ∧
    (runSched "k" (.vstr "d") serialSched (initSys [("k", u)] [("k", v)])).a.retVal = u ∧
    (runSched "k" (.vstr "d") serialSched (initSys [("k", u)] [("k", v)])).b.retVal = v := by
  refine ⟨fun key dflt sched s => runSched_shared key dflt sched s, ?_, ?_⟩ <;> rfl

/-- C2: a tool registered before the server exists is never bound.
`MCPDefineTool.init` with no server in the context appends the component
to the pending list and prints that the tool "will be registered when
server is created"; but `MCPCreateServer.execute` only stores the fresh
server (it performs no bind sweep), and `MCPRunServer.execute`'s
"Register all tools" loops are `pass`.  Evaluated at the failing input:
after `init`, `createServer("s")` and `runServer`, the pending list holds
the component but the server has zero registrations. -/
theorem tool_pending_before_server_never_bound :
    (createServerExecute true (some "s") none
        (toolInit 0 { name := some "add", description := none } emptyCtx)).map
      (fun ctx =>
        (ctx.mcp_tools, boundInCtx 0 ctx, boundInCtx 0 (runServerExecute ctx)))
      = .ok ([0], false, false) := by
  rfl

/-- C3: a descriptor registered while the server is already present is
bound by the time `init` returns — its handler is registered with the
stored server — and it is also appended to the pending list for its kind;
this holds for all three Define components. -/
theorem init_with_server_present_binds_immediately
    (ctx : Ctx) (s : Server) (i : Nat)
    (ct : ToolComp) (cr : ResourceComp) (cp : PromptComp)
    (h : ctx.mcp_server = some s) :
    (boundInCtx i (toolInit i ct ctx) = true ∧
      (toolInit i ct ctx).mcp_tools = ctx.mcp_tools ++ [i]) ∧
    (boundInCtx i (resourceInit i cr ctx) = true ∧
      (resourceInit i cr ctx).mcp_resources = ctx.mcp_resources ++ [i]) ∧
    (boundInCtx i (promptInit i cp ctx) = true ∧
      (promptInit i cp ctx).mcp_prompts = ctx.mcp_prompts ++ [i]) := by
  refine ⟨⟨?_, ?_⟩, ⟨?_, ?_⟩, ⟨?_, ?_⟩⟩
  · by_cases hn : strTruthy ct.name <;>
      simp [toolInit, h, boundInCtx, registerToolOnServer, hn]
  · simp [toolInit, h]
  · simp [resourceInit, h, boundInCtx, registerResourceOnServer]
  · simp [resourceInit, h]
  · by_cases hn : strTruthy cp.name <;>
      simp [promptInit, h, boundInCtx, registerPromptOnServer, hn]
  · simp [promptInit, h]

theorem init_with_server_present_binds_immediately_witness :
    ctxWithServer.mcp_server = some sampleServer ∧
    (boundInCtx 7 (toolInit 7 { name := some "add", description := none } ctxWithServer) = true ∧
      (toolInit 7 { name := some "add", description := none } ctxWithServer).mcp_tools =
        ctxWithServer.mcp_tools ++ [7]) ∧
    (boundInCtx 7 (resourceInit 7 { path := "users://p", description := none } ctxWithServer) = true ∧
      (resourceInit 7 { path := "users://p", description := none } ctxWithServer).mcp_resources =
        ctxWithServer.mcp_resources ++ [7]) ∧
    (boundInCtx 7 (promptInit 7 { name := some "greet", description := none } ctxWithServer) = true ∧
      (promptInit 7 { name := some "greet", description := none } ctxWithServer).mcp_prompts =
        ctxWithServer.mcp_prompts ++ [7]) :=
  ⟨rfl,
   init_with_server_present_binds_immediately ctxWithServer sampleServer 7
     { name := some "add", description := none }
     { path := "users://p", description := none }
     { name := some "greet", description := none } rfl⟩

/-- C4 counterexample: binding is NOT idempotent.  Running the same tool
component's registration twice with the server present (repeated graph
execution) appends the component to the pending list twice and registers
its handler with the server twice under the same identity — a duplicate
handler registration, contradicting "attached to the server exactly
once". -/
theorem repeated_registration_duplicates_cex :
    (createServerExecute true (some "s") none emptyCtx).map
      (fun ctx =>
        let ctx3 := toolInit 0 { name := some "add", description := none }
          (toolInit 0 { name := some "add", description := none } ctx)
        (ctx3.mcp_tools, ctx3.mcp_server.map Server.toolRegs))
      = .ok ([0, 0], some [(some "add", 0), (some "add", 0)]) := by
  rfl

/-- C4 amended: re-running registration for the same descriptor with the
server present is not a no-op: there is no `bound` flag, so the second
`init` appends the component to the pending list again and performs a
second server registration under the same identity. -/
theorem repeated_registration_appends_duplicate
    (i : Nat) (c : ToolComp) (ctx : Ctx) (s : Server)
    (h : ctx.mcp_server = some s) :
    ∃ s2, (toolInit i c (toolInit i c ctx)).mcp_server = some s2 ∧
      s2.toolRegs = s.toolRegs ++ [(nameIdentity c.name, i), (nameIdentity c.name, i)] ∧
      (toolInit i c (toolInit i c ctx)).mcp_tools = ctx.mcp_tools ++ [i, i] := by
  by_cases hn : strTruthy c.name
  · refine ⟨{ s with toolRegs := s.toolRegs ++ [(c.name, i), (c.name, i)] }, ?_, ?_, ?_⟩
    · simp [toolInit, h, registerToolOnServer, hn]
    · simp [nameIdentity, hn]
    · simp [toolInit, h]
  · refine ⟨{ s with toolRegs := s.toolRegs ++ [(none, i), (none, i)] }, ?_, ?_, ?_⟩
    · simp [toolInit, h, registerToolOnServer, hn]
    · simp [nameIdentity, hn]
    · simp [toolInit, h]

theorem repeated_registration_appends_duplicate_witness :
    ctxWithServer.mcp_server = some sampleServer ∧
    ∃ s2, (toolInit 0 { name := some "add", description := none }
            (toolInit 0 { name := some "add", description := none } ctxWithServer)).mcp_server = some s2 ∧
      s2.toolRegs = sampleServer.toolRegs ++
        [(nameIdentity (some "add"), 0), (nameIdentity (some "add"), 0)] ∧
      (toolInit 0 { name := some "add", description := none }
        (toolInit 0 { name := some "add", description := none } ctxWithServer)).mcp_tools =
        ctxWithServer.mcp_tools ++ [0, 0] :=
  ⟨rfl, repeated_registration_appends_duplicate 0
          { name := some "add", description := none } ctxWithServer sampleServer rfl⟩

/-- C5 counterexample: an exception raised inside the chain is NOT caught
at the bridge boundary — the handler closure contains no `try`/`except`,
so the exception propagates out of the handler instead of being converted
into an empty result. -/
theorem chain_exception_escapes_cex :
    toolHandler (some [ChainOp.raiseExc "boom"]) emptyCtx [] = .error "boom" := by
  rfl

/-- C5 amended: an exception raised during chain execution propagates out
of the handler function to the protocol server unchanged, for all three
handler kinds; nothing is caught, logged, or converted to an empty
result. -/
theorem chain_exception_propagates_out
    (ops : List ChainOp) (ctx : Ctx) (kwargs : Dict) (e : String)
    (h : runChain ops ctx = .error e) :
    toolHandler (some ops) ctx kwargs = .error e ∧
    resourceHandler (some ops) ctx kwargs = .error e ∧
    promptHandler (some ops) ctx kwargs = .error e := by
  refine ⟨?_, ?_, ?_⟩ <;> simp [toolHandler, resourceHandler, promptHandler, h]

theorem chain_exception_propagates_out_witness :
    runChain [ChainOp.raiseExc "boom"] emptyCtx = .error "boom" ∧
    (toolHandler (some [ChainOp.raiseExc "boom"]) emptyCtx [] = .error "boom" ∧
     resourceHandler (some [ChainOp.raiseExc "boom"]) emptyCtx [] = .error "boom" ∧
     promptHandler (some [ChainOp.raiseExc "boom"]) emptyCtx [] = .error "boom") :=
  ⟨rfl, chain_exception_propagates_out [ChainOp.raiseExc "boom"] emptyCtx [] "boom" rfl⟩

/-- C6 counterexample: invoking a handler whose descriptor has no attached
chain returns `None` without throwing — but NO `MissingChainError` is
logged: the call's log output is the empty list (the source has no such
error and prints nothing on this path), refuting the "logged" half of the
claim. -/
theorem missing_chain_logs_nothing_cex :
    toolHandler none emptyCtx [] =
      .ok (.pynone, { argsVal := some [], ctxVal := .pynone }, []) := by
  rfl

/-- C6 amended: with no attached chain the bridge returns `None` to the
protocol server without throwing, and nothing at all is logged for the
call — there is no `MissingChainError` anywhere in the code. -/
theorem missing_chain_returns_none_silently (ctx : Ctx) (kwargs : Dict) :
    toolHandler none ctx kwargs =
      .ok (.pynone,
           { argsVal := some kwargs, ctxVal := (dictGet kwargs "ctx").getD .pynone },
           []) := by
  rfl

/-- C7: for an invocation whose chain raises nothing and whose initial
context copy holds no `tool_result` key, the bridge returns the last value
a `MCPSetToolResult` node wrote during the chain traversal, and `None`
(not an error) when the chain performed no such write — `lastWrite`
returns `none` exactly then, and `Option.getD .pynone` yields the empty
result. -/
theorem bridge_returns_last_tool_result_write
    (ops : List ChainOp) (ctx : Ctx) (kwargs : Dict)
    (hR : noRaise ops = true)
    (h0 : dictGet ctx.store "tool_result" = none) :
    ∃ ports logs,
      toolHandler (some ops) ctx kwargs =
        .ok ((lastWrite "tool_result" ops).getD .pynone, ports, logs) := by
  obtain ⟨c', logs, hrun, hst⟩ := runChain_ok_store ops ctx hR
  have hres : dictGet c'.store "tool_result" = lastWrite "tool_result" ops := by
    rw [hst "tool_result", h0, afterWrites_none]
  refine ⟨{ argsVal := some kwargs, ctxVal := (dictGet kwargs "ctx").getD .pynone },
          logs, ?_⟩
  simp [toolHandler, hrun, hres]

theorem bridge_returns_last_tool_result_write_witness :
    noRaise [ChainOp.setToolResult (.vnat 1), ChainOp.setToolResult (.vnat 2)] = true ∧
    dictGet emptyCtx.store "tool_result" = none ∧
    ∃ ports logs,
      toolHandler
        (some [ChainOp.setToolResult (.vnat 1), ChainOp.setToolResult (.vnat 2)])
        emptyCtx [] = .ok (.vnat 2, ports, logs) :=
  ⟨rfl, rfl,
   bridge_returns_last_tool_result_write
     [ChainOp.setToolResult (.vnat 1), ChainOp.setToolResult (.vnat 2)]
     emptyCtx [] rfl rfl⟩

/-- C8 counterexample: with the protocol library unavailable,
`MCPCreateServer.execute` does NOT fail with a `ServerCreationError` — it
prints an error and returns normally (`.ok`, never `.error`; the source
catches the `ImportError` and contains no `raise`), leaving the context
unchanged. -/
theorem unavailable_sdk_returns_ok_cex :
    createServerExecute false (some "s") none emptyCtx = .ok emptyCtx := by
  rfl

/-- C8 amended: when the protocol library is unavailable, `createServer`
returns normally without raising anything, and the context is completely
unchanged — so the server slot stays as it was (unset if unset) and no
descriptor's boundness changes.  No `ServerCreationError` exists in the
code, and an empty/absent name is never treated as invalid (the default
name is substituted instead). -/
theorem unavailable_sdk_leaves_ctx_unchanged
    (nm : Option String) (deps : Option (List String)) (ctx : Ctx) :
    createServerExecute false nm deps ctx = .ok ctx := by
  rfl

/-- C9: with an absent or empty server name, `MCPCreateServer.execute`
does not fail: it substitutes the default name `"xircuits-mcp-server"`
and stores a server created under that name (with the defaulted
dependency list) in the context's server slot. -/
theorem empty_name_defaults
    (nm : Option String) (deps : Option (List String)) (ctx : Ctx)
    (h : strTruthy nm = false) :
    ∃ s : Server,
      createServerExecute true nm deps ctx = .ok { ctx with mcp_server := some s } ∧
      s.name = "xircuits-mcp-server" ∧ s.dependencies = deps.getD [] := by
  refine ⟨{ name := "xircuits-mcp-server", dependencies := deps.getD [],
            toolRegs := [], resourceRegs := [], promptRegs := [] }, ?_, rfl, rfl⟩
  simp [createServerExecute, h]

theorem empty_name_defaults_witness :
    strTruthy none = false ∧
    ∃ s : Server,
      createServerExecute true none none emptyCtx =
        .ok { emptyCtx with mcp_server := some s } ∧
      s.name = "xircuits-mcp-server" ∧
      s.dependencies = (none : Option (List String)).getD [] :=
  ⟨rfl, empty_name_defaults none none emptyCtx rfl⟩

/-- C10: result values never leak between invocations.  A chain's
set-result writes land only in that call's copied context — the handler
never assigns into the process-wide `ctx` dict, so evaluating any later
invocation against the same process-wide context is faithful — and hence
an invocation whose chain performs no set-result for its kind reads the
empty result `None` for all three kinds, while the earlier invocation
returned exactly the value its own chain wrote. -/
theorem results_stay_in_call_copy
    (ctx : Ctx) (kw1 kw2 : Dict) (v : Value) (ops2 : List ChainOp)
    (h0t : dictGet ctx.store "tool_result" = none)
    (h0r : dictGet ctx.store "resource_result" = none)
    (h0p : dictGet ctx.store "prompt_result" = none)
    (hR : noRaise ops2 = true)
    (hWt : lastWrite "tool_result" ops2 = none)
    (hWr : lastWrite "resource_result" ops2 = none)
    (hWp : lastWrite "prompt_result" ops2 = none) :
    (∃ p l, toolHandler (some [ChainOp.setToolResult v]) ctx kw1 = .ok (v, p, l)) ∧
    (∃ p l, toolHandler (some ops2) ctx kw2 = .ok (.pynone, p, l)) ∧
    (∃ p l, resourceHandler (some ops2) ctx kw2 = .ok (.pynone, p, l)) ∧
    (∃ p l, promptHandler (some ops2) ctx kw2 = .ok (.pynone, p, l)) := by
  obtain ⟨c', logs, hrun, hst⟩ := runChain_ok_store ops2 ctx hR
  have ht : dictGet c'.store "tool_result" = none := by
    rw [hst "tool_result", h0t, afterWrites_none, hWt]
  have hr : dictGet c'.store "resource_result" = none := by
    rw [hst "resource_result", h0r, afterWrites_none, hWr]
  have hp : dictGet c'.store "prompt_result" = none := by
    rw [hst "prompt_result", h0p, afterWrites_none, hWp]
  refine ⟨⟨{ argsVal := some kw1, ctxVal := (dictGet kw1 "ctx").getD .pynone },
           ["Set tool result: " ++ showValue v], ?_⟩,
          ⟨{ argsVal := some kw2, ctxVal := (dictGet kw2 "ctx").getD .pynone }, logs, ?_⟩,
          ⟨{ argsVal := some kw2, ctxVal := (dictGet kw2 "ctx").getD .pynone }, logs, ?_⟩,
          ⟨{ argsVal := some kw2, ctxVal := (dictGet kw2 "ctx").getD .pynone }, logs, ?_⟩⟩
  · simp [toolHandler, runChain, execOp, dictGet_dictSet, h0t]
  · simp [toolHandler, hrun, ht]
  · simp [resourceHandler, hrun, hr]
  · simp [promptHandler, hrun, hp]

theorem results_stay_in_call_copy_witness :
    dictGet emptyCtx.store "tool_result" = none ∧
    dictGet emptyCtx.store "resource_result" = none ∧
    dictGet emptyCtx.store "prompt_result" = none ∧
    noRaise ([] : List ChainOp) = true ∧
    lastWrite "tool_result" ([] : List ChainOp) = none ∧
    lastWrite "resource_result" ([] : List ChainOp) = none ∧
    lastWrite "prompt_result" ([] : List ChainOp) = none ∧
    ((∃ p l, toolHandler (some [ChainOp.setToolResult (.vnat 5)]) emptyCtx [] =
        .ok (.vnat 5, p, l)) ∧
     (∃ p l, toolHandler (some []) emptyCtx [] = .ok (.pynone, p, l)) ∧
     (∃ p l, resourceHandler (some []) emptyCtx [] = .ok (.pynone, p, l)) ∧
     (∃ p l, promptHandler (some []) emptyCtx [] = .ok (.pynone, p, l)) ∧ True) := by
  refine ⟨rfl, rfl, rfl, rfl, rfl, rfl, rfl, ?_⟩
  have h := results_stay_in_call_copy emptyCtx [] [] (.vnat 5)
    ([] : List ChainOp) rfl rfl rfl rfl rfl rfl rfl
  exact ⟨h.1, h.2.1, h.2.2.1, h.2.2.2, trivial⟩
